import Mathlib

/-!
Shallow embedding of `src/vohala_network_scanner.py` (Vohala Network Scanner v1.7).

Pure string manipulation is embedded at the level of `List Char` with
structurally recursive helpers, so that every definition evaluates inside the
kernel. Network and OS effects (the ARP table file, the `ping` exit status,
TCP connect outcomes, the `nmblookup` output, reverse DNS) are passed in as
explicit outcome values: `Option`/`Except` encode the caught-exception paths
of the Python `try`/`except` blocks.
-/

set_option autoImplicit false

/-! ### Python-style string primitives -/

/-- Split a character list at every separator character, keeping empty pieces
(the semantics of splitting before filtering, as Python's `str.split()` with
no argument drops empty pieces afterwards). -/
def splitChars (p : Char → Bool) : List Char → List (List Char)
  | [] => [[]]
  | c :: cs =>
    let r := splitChars p cs
    if p c then [] :: r
    else
      match r with
      | [] => [[c]]
      | w :: ws => (c :: w) :: ws

/-- Python `str.split()` with no argument: split on whitespace runs and drop
empty tokens. -/
def pySplitTokens (cs : List Char) : List (List Char) :=
  (splitChars Char.isWhitespace cs).filter (fun w => !w.isEmpty)

/-- Python `str.split()` returning `String` tokens. -/
def pySplit (s : String) : List String :=
  (pySplitTokens s.data).map String.mk

/-- Python `str.strip()`: drop leading and trailing whitespace. -/
def trimChars (cs : List Char) : List Char :=
  ((cs.dropWhile Char.isWhitespace).reverse.dropWhile Char.isWhitespace).reverse

/-- Python `str.splitlines()` restricted to `'\n'` separators: split at
newlines, with no trailing empty line for a trailing newline. -/
def pySplitlines (cs : List Char) : List (List Char) :=
  let parts := splitChars (fun c => c == '\n') cs
  if parts.getLast? == some [] then parts.dropLast else parts

/-- Substring test on character lists (Python's `pat in s`). -/
def containsSub (s pat : List Char) : Bool :=
  match s with
  | [] => pat.isEmpty
  | c :: rest => pat.isPrefixOf (c :: rest) || containsSub rest pat

/-- Python `pat in s` on strings. -/
def pyIn (pat s : String) : Bool :=
  containsSub s.data pat.data

/-! ### Python `dict` as an association list -/

/-- Python `d[k] = v`: update the binding in place when the key exists,
otherwise append it. -/
def dictInsert (m : List (String × String)) (k v : String) : List (String × String) :=
  match m with
  | [] => [(k, v)]
  | (k', v') :: rest => if k' = k then (k, v) :: rest else (k', v') :: dictInsert rest k v

/-- Python `d.get(k)`: the value of the first (unique) binding of `k`. -/
def dictGet (m : List (String × String)) (k : String) : Option String :=
  match m with
  | [] => none
  | (k', v') :: rest => if k' = k then some v' else dictGet rest k

/-! ### Configuration constants (source lines 24-50) -/

/-- The fixed probed port list `PORTS` (source lines 24-27), in declared
order. -/
def PORTS : List Nat :=
  [21, 22, 23, 25, 53, 80, 110, 135, 139, 143, 443, 445, 3389, 5357, 8080, 8443]

/-- The built-in OUI fallback table `OUI_FALLBACK` (source lines 31-50), in
declared order, values verbatim. -/
def OUI_FALLBACK : List (String × String) :=
  [("0001C0", "Hewlett-Packard"),
   ("0003F8", "Hewlett-Packard"),
   ("00085D", "Dell"),
   ("001A2B", "Dfell"),
   ("F0D5BF", "Dell"),
   ("00265E", "Lenovo"),
   ("EC8EAD", "Lenovo"),
   ("3C5A37", "ASUSTek"),
   ("B4A9FC", "ASUSTek"),
   ("84A134", "Samsung"),
   ("F8E61A", "Samsung"),
   ("B827EB", "Raspberry Pi"),
   ("D85D4C", "Xiaomi"),
   ("A4B197", "Apple"),
   ("F0D1A9", "Apple"),
   ("BC929B", "OnePlus"),
   ("18C04D", "HP Inc."),
   ("A0A36E", "Realtek")]

/-! ### OUI map and vendor lookup (source lines 192-211) -/

/-- The normalization `mac.upper().replace(":", "").replace("-", "")[:6]`
applied both to external OUI keys (line 200) and to looked-up hardware
addresses (line 210). -/
def normalizeMac (s : String) : String :=
  String.mk (((s.data.map Char.toUpper).filter (fun c => !(c == ':' || c == '-'))).take 6)

/-- `load_oui_map` (source lines 192-203): start from a copy of
`OUI_FALLBACK` and write every external entry over it under its normalized
key; `none` stands for the external file being absent or unreadable (the
`except` path keeps the fallback). -/
def load_oui_map (ext : Option (List (String × String))) : List (String × String) :=
  match ext with
  | none => OUI_FALLBACK
  | some data => data.foldl (fun m kv => dictInsert m (normalizeMac kv.1) kv.2) OUI_FALLBACK

/-- `vendor_from_mac` (source lines 207-211), parameterized by the loaded OUI
map; `none` and `""` both make Python's `not mac` true. -/
def vendor_from_mac (ouiMap : List (String × String)) (mac : Option String) : String :=
  match mac with
  | none => "-"
  | some m => if m = "" then "-" else (dictGet ouiMap (normalizeMac m)).getD "Unknown"

/-! ### ARP table (source lines 107-124) -/

/-- One iteration of the parsing loop of `read_arp_table` (source lines
113-118): split the line, and when it has at least four fields record the
MAC (field 3) under the IP (field 0) unless it is empty or the all-zero
stale value. -/
def arpStep (table : List (String × String)) (line : String) : List (String × String) :=
  match pySplit line with
  | ip :: _ :: _ :: mac :: _ =>
    if mac != "" && mac != "00:00:00:00:00:00" then dictInsert table ip mac else table
  | _ => table

/-- `read_arp_table` (source lines 107-121): `none` stands for the open of
`/proc/net/arp` raising (caught, empty table); an empty file makes `next(f)`
raise `StopIteration`, also caught; otherwise the header line is skipped and
the rest parsed. -/
def read_arp_table (file : Option (List String)) : List (String × String) :=
  match file with
  | none => []
  | some [] => []
  | some (_ :: rest) => rest.foldl arpStep []

/-- `mac_for_ip` (source lines 123-124). -/
def mac_for_ip (file : Option (List String)) (ip : String) : Option String :=
  dictGet (read_arp_table file) ip

/-! ### NetBIOS and hostname resolution (source lines 144-170) -/

/-- `nmb_has_name` (source lines 144-150): `none` stands for `nmblookup`
raising (caught, `False`); otherwise the test is the bare substring check
`"<00>" in out`. -/
def nmb_has_name (out : Option String) : Bool :=
  match out with
  | none => false
  | some o => pyIn "<00>" o

/-- The line filter of `resolve_hostname` (source line 164):
`"<00>" in L and "group" not in L.lower()`. -/
def isCandidateLine (L : List Char) : Bool :=
  containsSub L "<00>".data && !containsSub (L.map Char.toLower) "group".data

/-- `L.split()[0]` (source line 165); the list is never empty when the line
passed the `"<00>" in L` test, so the default is unreachable. -/
def firstTokenChars (L : List Char) : List Char :=
  (pySplitTokens L).headD []

/-- The NetBIOS name-extraction loop of `resolve_hostname` (source lines
162-167): scan lines in order, and return the first token of the first
candidate line whose token is neither empty nor `"name_query"`; fall through
to `"-"` (line 170). -/
def nbLoop : List (List Char) → String
  | [] => "-"
  | line :: rest =>
    let L := trimChars line
    if isCandidateLine L then
      let name := firstTokenChars L
      if name != ([] : List Char) && name != "name_query".data then String.mk name
      else nbLoop rest
    else nbLoop rest

/-- `resolve_hostname` (source lines 152-170): `rdns` is the outcome of
`socket.gethostbyaddr(ip)[0]` (`none` when it raised), `nmbOut` the outcome
of the `nmblookup -A` call (`none` when it raised). -/
def resolve_hostname (rdns : Option String) (nmbOut : Option String) : String :=
  match rdns with
  | some h => h
  | none =>
    match nmbOut with
    | none => "-"
    | some out => nbLoop (pySplitlines out.data)

/-! ### Liveness engine (source lines 172-190) -/

/-- Probe events of `is_alive`, for recording the evaluation order. -/
inductive Probe where
  | nudge
  | arpLookup
  | icmp
  | tcpProbe (port : Nat)
  | netbios
  deriving DecidableEq, Repr

/-- Environment of one `is_alive` call: the outcomes the OS would hand each
probe. `arpFile1`/`arpFile2` are the contents of `/proc/net/arp` at the two
`mac_for_ip` calls (they may differ: the nudge or port probes can populate
the cache in between); `tcpOk p` is the outcome of `tcp_check(ip, p)`. -/
structure ProbeEnv where
  arpFile1 : Option (List String)
  pingOk : Bool
  tcpOk : Nat → Bool
  nmbOk : Bool
  arpFile2 : Option (List String)

/-- The TCP loop of `is_alive` (source lines 181-183): try ports in declared
order, stop at the first success; also record which ports were probed. -/
def tcpSweep (f : Nat → Bool) : List Nat → Bool × List Probe
  | [] => (false, [])
  | p :: ps =>
    if f p then (true, [Probe.tcpProbe p])
    else
      let r := tcpSweep f ps
      (r.1, Probe.tcpProbe p :: r.2)

/-- `is_alive` (source lines 172-190), returning the verdict together with
the ordered trace of probes evaluated: nudge (side effect only), first ARP
lookup, ping, the TCP sweep over `PORTS`, NetBIOS, second ARP lookup. -/
def is_alive (ip : String) (env : ProbeEnv) : Bool × List Probe :=
  if (mac_for_ip env.arpFile1 ip).isSome then (true, [Probe.nudge, Probe.arpLookup])
  else if env.pingOk then (true, [Probe.nudge, Probe.arpLookup, Probe.icmp])
  else if (tcpSweep env.tcpOk PORTS).1 then
    (true, [Probe.nudge, Probe.arpLookup, Probe.icmp] ++ (tcpSweep env.tcpOk PORTS).2)
  else if env.nmbOk then
    (true, [Probe.nudge, Probe.arpLookup, Probe.icmp] ++ (tcpSweep env.tcpOk PORTS).2 ++
      [Probe.netbios])
  else if (mac_for_ip env.arpFile2 ip).isSome then
    (true, [Probe.nudge, Probe.arpLookup, Probe.icmp] ++ (tcpSweep env.tcpOk PORTS).2 ++
      [Probe.netbios, Probe.arpLookup])
  else
    (false, [Probe.nudge, Probe.arpLookup, Probe.icmp] ++ (tcpSweep env.tcpOk PORTS).2 ++
      [Probe.netbios, Probe.arpLookup])

/-- The complete probe sequence of `is_alive` when nothing short-circuits. -/
def fullTrace : List Probe :=
  [Probe.nudge, Probe.arpLookup, Probe.icmp] ++
    (PORTS.map Probe.tcpProbe ++ [Probe.netbios, Probe.arpLookup])

/-! ### `tcp_check` resource model (source lines 134-142) -/

/-- Outcome of `socket.socket(AF_INET, SOCK_STREAM)` at line 135 (outside the
`try` block). -/
inductive SockOutcome where
  | ok
  | raise
  deriving DecidableEq

/-- Outcome of `s.connect_ex((ip, port))` at line 138: a returned error code,
or a raised exception (e.g. `socket.gaierror` on a failed name resolution). -/
inductive ConnectOutcome where
  | code (r : Int)
  | raise
  deriving DecidableEq

/-- Observable outcome of one `tcp_check` call: `result` is the value
returned (or `Except.error` when the call itself raises), `closed` records
whether `s.close()` was executed. -/
structure TcpRun where
  result : Except Unit Bool
  closed : Bool

/-- `tcp_check` (source lines 134-142). Socket creation is outside the `try`,
so its exception propagates with no socket to close; `connect_ex` returning
`r` reaches `s.close()` and returns `r == 0`; `connect_ex` raising jumps to
the bare `except`, which returns `False` without running `s.close()`. -/
def tcp_check (so : SockOutcome) (co : ConnectOutcome) : TcpRun :=
  match so with
  | SockOutcome.raise => { result := Except.error (), closed := false }
  | SockOutcome.ok =>
    match co with
    | ConnectOutcome.code r => { result := Except.ok (r == 0), closed := true }
    | ConnectOutcome.raise => { result := Except.ok false, closed := false }

/-! ### Exception-level model of `is_alive` (for the never-throws contract) -/

/-- Raw OS outcomes for one `is_alive` call, with the possibility of a raised
exception at every primitive: `arpRead1`/`arpRead2` the two reads of
`/proc/net/arp`, `pingRaw` the `subprocess.run` return code, `sockCreate p`
and `connectRaw p` the two phases of `tcp_check(ip, p)`, `nmbRaw` the
`nmblookup` output. -/
structure RawEnv where
  arpRead1 : Except Unit (List String)
  pingRaw : Except Unit Int
  sockCreate : Nat → SockOutcome
  connectRaw : Nat → ConnectOutcome
  nmbRaw : Except Unit String
  arpRead2 : Except Unit (List String)

/-- Collapse a caught-exception read into the `Option` the wrappers consume. -/
def exceptToOption {α : Type} (e : Except Unit α) : Option α :=
  match e with
  | Except.error _ => none
  | Except.ok a => some a

/-- `ping` (source lines 126-132): `returncode == 0`, any exception caught as
`False`. -/
def pingE (r : Except Unit Int) : Bool :=
  match r with
  | Except.error _ => false
  | Except.ok code => code == 0

/-- The TCP loop of `is_alive` over the raw environment: a port check that
raises propagates out of the loop (there is no `try` around it in
`is_alive`). -/
def tcpSweepE (env : RawEnv) : List Nat → Except Unit Bool
  | [] => Except.ok false
  | p :: ps =>
    match (tcp_check (env.sockCreate p) (env.connectRaw p)).result with
    | Except.error e => Except.error e
    | Except.ok true => Except.ok true
    | Except.ok false => tcpSweepE env ps

/-- `is_alive` (source lines 172-190) over raw outcomes, with exception
propagation made explicit: every wrapper except `tcp_check`'s socket
creation catches its own failures. -/
def is_aliveE (ip : String) (env : RawEnv) : Except Unit Bool :=
  if (mac_for_ip (exceptToOption env.arpRead1) ip).isSome then Except.ok true
  else if pingE env.pingRaw then Except.ok true
  else
    match tcpSweepE env PORTS with
    | Except.error e => Except.error e
    | Except.ok true => Except.ok true
    | Except.ok false =>
      if nmb_has_name (exceptToOption env.nmbRaw) then Except.ok true
      else if (mac_for_ip (exceptToOption env.arpRead2) ip).isSome then Except.ok true
      else Except.ok false

/-! ### Per-host port scan (source lines 259-263) -/

/-- The port scan of `main` (source lines 259-263): zip `PORTS` with the
per-port `tcp_check` outcomes in declared order and append the ports whose
check succeeded. -/
def scanPorts (tcpOk : Nat → Bool) : List Nat :=
  (PORTS.map (fun p => (p, tcpOk p))).foldl
    (fun acc x => if x.2 then acc ++ [x.1] else acc) []

/-! ### Network fallback and host enumeration (source lines 242-251) -/

/-- The numeric value of the IPv4 address 192.168.1.0. -/
def NETBASE : Nat := 192 * 16777216 + 168 * 65536 + 1 * 256

/-- The fallback of `main` (source lines 242-246): a parsed network is used
as is; a parse failure (the `except` path) selects 192.168.1.0/24 and prints
the warning. The pair is (base address, prefix length); the Bool records
whether the warning was emitted. -/
def chooseNet (parsed : Option (Nat × Nat)) : (Nat × Nat) × Bool :=
  match parsed with
  | some n => (n, false)
  | none => ((NETBASE, 24), true)

/-- Modelled from the spec: `net.hosts()` of Python's `ipaddress` module is
outside the repository; per the spec it enumerates the usable host addresses
of the block, i.e. every address of the block except the network address and
the broadcast address. -/
def usableHosts (base size : Nat) : List Nat :=
  ((List.range size).map (fun i => base + i)).filter
    (fun a => !(a == base) && !(a == base + size - 1))

/-! ### Spec-side definitions for comparison -/

/-- Modelled from the spec (for comparison with `nmb_has_name`): "true iff
the response contains a workstation-service name record (a `<00>` resource
that is not a group name)" — some line holds `<00>` and is not a group
record. -/
def specWorkstationName (out : String) : Bool :=
  (pySplitlines out.data).any (fun line => isCandidateLine (trimChars line))

/-- Modelled from the spec (for comparison with `nbLoop`): "the first name
from a `<00>` record line that is not a group record and is neither empty
nor the literal `name_query`". -/
def specNbName (lines : List (List Char)) : Option (List Char) :=
  (((lines.map trimChars).filterMap
      (fun L => if isCandidateLine L then some (firstTokenChars L) else none)).find?
    (fun n => n != ([] : List Char) && n != "name_query".data))

/-! ### Helper lemmas -/

theorem dictGet_dictInsert_self (m : List (String × String)) (k v : String) :
    dictGet (dictInsert m k v) k = some v := by
  induction m with
  | nil => simp [dictInsert, dictGet]
  | cons kv rest ih =>
    obtain ⟨k', v'⟩ := kv
    by_cases h : k' = k
    · simp [dictInsert, dictGet, h]
    · simp [dictInsert, dictGet, h, ih]

theorem mem_dictInsert {m : List (String × String)} {k v : String} {p : String × String}
    (h : p ∈ dictInsert m k v) : p ∈ m ∨ p = (k, v) := by
  induction m with
  | nil =>
    simp [dictInsert] at h
    exact Or.inr h
  | cons kv rest ih =>
    obtain ⟨k', v'⟩ := kv
    by_cases hk : k' = k
    · simp only [dictInsert, if_pos hk, List.mem_cons] at h
      rcases h with h | h
      · exact Or.inr h
      · exact Or.inl (List.mem_cons_of_mem _ h)
    · simp only [dictInsert, if_neg hk, List.mem_cons] at h
      rcases h with h | h
      · exact Or.inl (by simp [h])
      · rcases ih h with h' | h'
        · exact Or.inl (List.mem_cons_of_mem _ h')
        · exact Or.inr h'

theorem dictGet_mem : ∀ {m : List (String × String)} {k w : String},
    dictGet m k = some w → (k, w) ∈ m := by
  intro m
  induction m with
  | nil => intro k w h; simp [dictGet] at h
  | cons kv rest ih =>
    intro k w h
    obtain ⟨k', v'⟩ := kv
    by_cases hk : k' = k
    · subst hk
      have hv : some v' = some w := by simpa only [dictGet, if_pos rfl] using h
      injection hv with hv'
      subst hv'
      exact List.mem_cons_self _ _
    · simp only [dictGet, if_neg hk] at h
      exact List.mem_cons_of_mem _ (ih h)

theorem foldl_preserve {α β : Type} (step : β → α → β) (Inv : β → Prop)
    (hstep : ∀ b a, Inv b → Inv (step b a)) :
    ∀ (l : List α) (b : β), Inv b → Inv (l.foldl step b) := by
  intro l
  induction l with
  | nil => intro b hb; exact hb
  | cons a as ih => intro b hb; exact ih _ (hstep b a hb)

theorem isPrefixOf_eq_true_iff : ∀ (l₁ l₂ : List Char),
    l₁.isPrefixOf l₂ = true ↔ ∃ t, l₁ ++ t = l₂ := by
  intro l₁
  induction l₁ with
  | nil => intro l₂; simp [List.isPrefixOf]
  | cons a as ih =>
    intro l₂
    cases l₂ with
    | nil => simp [List.isPrefixOf]
    | cons b bs =>
      simp only [List.isPrefixOf, Bool.and_eq_true, beq_iff_eq]
      constructor
      · rintro ⟨hab, h⟩
        obtain ⟨t, ht⟩ := (ih bs).mp h
        exact ⟨t, by simp [hab, ht]⟩
      · rintro ⟨t, ht⟩
        rw [List.cons_append] at ht
        injection ht with h1 h2
        exact ⟨h1, (ih bs).mpr ⟨t, h2⟩⟩

theorem containsSub_eq_true_iff : ∀ (s pat : List Char),
    containsSub s pat = true ↔ ∃ pre post, s = pre ++ pat ++ post := by
  intro s
  induction s with
  | nil =>
    intro pat
    simp only [containsSub, List.isEmpty_iff]
    constructor
    · intro h; exact ⟨[], [], by simp [h]⟩
    · rintro ⟨pre, post, h⟩
      have h' := h.symm
      simp only [List.append_eq_nil] at h'
      exact h'.1.2
  | cons c rest ih =>
    intro pat
    simp only [containsSub, Bool.or_eq_true]
    constructor
    · rintro (h | h)
      · obtain ⟨t, ht⟩ := (isPrefixOf_eq_true_iff pat (c :: rest)).mp h
        exact ⟨[], t, by simp [ht.symm]⟩
      · obtain ⟨pre, post, hp⟩ := (ih pat).mp h
        exact ⟨c :: pre, post, by simp [hp]⟩
    · rintro ⟨pre, post, h⟩
      cases pre with
      | nil =>
        left
        exact (isPrefixOf_eq_true_iff pat (c :: rest)).mpr ⟨post, by simpa using h.symm⟩
      | cons p pre' =>
        right
        rw [List.cons_append, List.cons_append] at h
        injection h with h1 h2
        exact (ih pat).mpr ⟨pre', post, by simpa using h2⟩

theorem prefix_append_left {α : Type} (x : List α) {t l : List α} (h : t <+: l) :
    (x ++ t) <+: (x ++ l) := by
  obtain ⟨s, hs⟩ := h
  exact ⟨s, by rw [List.append_assoc, hs]⟩

theorem prefix_append_extend {α : Type} {t l : List α} (r : List α) (h : t <+: l) :
    t <+: (l ++ r) := by
  obtain ⟨s, hs⟩ := h
  exact ⟨s ++ r, by rw [← List.append_assoc, hs]⟩

theorem tcpSweep_trace_pre (f : Nat → Bool) :
    ∀ ps : List Nat, (tcpSweep f ps).2 <+: ps.map Probe.tcpProbe := by
  intro ps
  induction ps with
  | nil => simp [tcpSweep]
  | cons p ps ih =>
    simp only [tcpSweep, List.map]
    cases hf : f p
    · simp only [hf, Bool.false_eq_true, if_false]
      obtain ⟨t, ht⟩ := ih
      exact ⟨t, by simp [ht]⟩
    · simp only [hf, if_true]
      exact ⟨ps.map Probe.tcpProbe, rfl⟩

theorem tcpSweep_false_trace (f : Nat → Bool) :
    ∀ ps : List Nat, (tcpSweep f ps).1 = false → (tcpSweep f ps).2 = ps.map Probe.tcpProbe := by
  intro ps
  induction ps with
  | nil => intro _; simp [tcpSweep]
  | cons p ps ih =>
    intro h
    simp only [tcpSweep] at h ⊢
    cases hf : f p
    · simp only [hf, Bool.false_eq_true, if_false] at h ⊢
      simp [ih h]
    · simp [hf] at h
 
theorem tcpSweep_true_iff (f : Nat → Bool) :
    ∀ ps : List Nat, (tcpSweep f ps).1 = true ↔ ∃ p, p ∈ ps ∧ f p = true := by
  intro ps
  induction ps with
  | nil => simp [tcpSweep]
  | cons p ps ih =>
    simp only [tcpSweep]
    cases hf : f p
    · simp only [hf, Bool.false_eq_true, if_false]
      constructor
      · intro h
        obtain ⟨q, hq, hfq⟩ := ih.mp h
        exact ⟨q, List.mem_cons_of_mem _ hq, hfq⟩
      · rintro ⟨q, hq, hfq⟩
        rcases List.mem_cons.mp hq with h | h
        · subst h; rw [hf] at hfq; exact absurd hfq (by simp)
        · exact ih.mpr ⟨q, h, hfq⟩
    · simp only [hf, if_true]
      constructor
      · intro _; exact ⟨p, List.mem_cons_self _ _, hf⟩
      · intro _; trivial

theorem scanPorts_foldl (f : Nat → Bool) :
    ∀ (l : List Nat) (acc : List Nat),
      (l.map (fun p => (p, f p))).foldl (fun acc x => if x.2 then acc ++ [x.1] else acc) acc
        = acc ++ l.filter f := by
  intro l
  induction l with
  | nil => intro acc; simp
  | cons p ps ih =>
    intro acc
    simp only [List.map, List.foldl, List.filter]
    cases hf : f p
    · simp only [hf, Bool.false_eq_true, if_false]
      exact ih acc
    · simp only [hf, if_true]
      rw [ih (acc ++ [p])]
      simp

theorem scanPorts_eq_filter (f : Nat → Bool) : scanPorts f = PORTS.filter f := by
  have h := scanPorts_foldl f PORTS []
  simpa [scanPorts] using h

theorem specNbName_cons (line : List Char) (rest : List (List Char)) :
    specNbName (line :: rest) =
      if isCandidateLine (trimChars line) then
        if firstTokenChars (trimChars line) != ([] : List Char) &&
            firstTokenChars (trimChars line) != "name_query".data then
          some (firstTokenChars (trimChars line))
        else specNbName rest
      else specNbName rest := by
  cases hc : isCandidateLine (trimChars line)
  · simp [specNbName, List.filterMap_cons, hc]
  · cases hn : (firstTokenChars (trimChars line) != ([] : List Char) &&
        firstTokenChars (trimChars line) != "name_query".data)
    · simp [specNbName, List.filterMap_cons, hc, hn, List.find?]
    · simp [specNbName, List.filterMap_cons, hc, hn, List.find?]

theorem nbLoop_eq_spec : ∀ lines, nbLoop lines = ((specNbName lines).map String.mk).getD "-" := by
  intro lines
  induction lines with
  | nil => simp [nbLoop, specNbName]
  | cons line rest ih =>
    rw [specNbName_cons]
    simp only [nbLoop]
    cases hc : isCandidateLine (trimChars line)
    · simp [hc, ih]
    · cases hn : (firstTokenChars (trimChars line) != ([] : List Char) &&
          firstTokenChars (trimChars line) != "name_query".data)
      · simp [hc, hn, ih]
      · simp [hc, hn]

theorem nbLoop_ne_empty : ∀ lines, nbLoop lines ≠ "" := by
  intro lines
  induction lines with
  | nil => simp [nbLoop]
  | cons line rest ih =>
    simp only [nbLoop]
    cases hc : isCandidateLine (trimChars line)
    · simpa [hc] using ih
    · cases hn : (firstTokenChars (trimChars line) != ([] : List Char) &&
          firstTokenChars (trimChars line) != "name_query".data)
      · simpa [hc, hn] using ih
      · simp only [hc, hn, if_true]
        have hne : firstTokenChars (trimChars line) ≠ [] := by
          have h1 := ((Bool.and_eq_true _ _).mp hn).1
          simpa using h1
        intro hEq
        apply hne
        have hdata := congrArg String.data hEq
        simpa using hdata

/-! ### Claim theorems -/

/-- Claim C5: for every outcome of the per-port TCP checks, the per-host port
scan is a subsequence of `PORTS` in declared order — every reported port is
an element of `PORTS`, none repeats, the length never exceeds `PORTS.length`,
the relative order is the declared order (the sublist relation), and the
empty result occurs (when no port accepts). -/
theorem scanPorts_subsequence_spec :
    (∀ f : Nat → Bool,
        List.Sublist (scanPorts f) PORTS ∧
        (∀ p, p ∈ scanPorts f → p ∈ PORTS) ∧
        (scanPorts f).Nodup ∧
        (scanPorts f).length ≤ PORTS.length) ∧
    scanPorts (fun _ => false) = [] := by
  constructor
  · intro f
    have hsub : List.Sublist (scanPorts f) PORTS := by
      rw [scanPorts_eq_filter]
      exact List.filter_sublist _
    refine ⟨hsub, ?_, ?_, hsub.length_le⟩
    · intro p hp
      exact hsub.subset hp
    · exact List.Nodup.sublist hsub (by decide)
  · rw [scanPorts_eq_filter]
    simp

theorem scanPorts_subsequence_spec_witness : 21 ∈ PORTS :=
  (scanPorts_subsequence_spec.1 (fun _ => true)).2.1 21 (by decide)

/-- Claim C6: a missing or empty hardware address yields "-"; an address
whose normalized 6-hex-digit form is absent from the map yields "Unknown";
an external entry whose normalized key collides with a built-in fallback
prefix wins the merge (last write wins); and B8:27:EB:11:22:33 resolves to
"Raspberry Pi" under the unmodified fallback table. -/
theorem vendor_lookup_spec :
    (∀ m : List (String × String),
        vendor_from_mac m none = "-" ∧ vendor_from_mac m (some "") = "-") ∧
    (∀ (m : List (String × String)) (mac : String), mac ≠ "" →
        dictGet m (normalizeMac mac) = none →
        vendor_from_mac m (some mac) = "Unknown") ∧
    (∀ (k v mac : String), mac ≠ "" →
        (dictGet OUI_FALLBACK (normalizeMac k)).isSome = true →
        normalizeMac mac = normalizeMac k →
        vendor_from_mac (load_oui_map (some [(k, v)])) (some mac) = v) ∧
    vendor_from_mac (load_oui_map none) (some "B8:27:EB:11:22:33") = "Raspberry Pi" := by
  refine ⟨?_, ?_, ?_, ?_⟩
  · intro m
    exact ⟨rfl, rfl⟩
  · intro m mac hm hget
    simp [vendor_from_mac, hm, hget]
  · intro k v mac hm _ hnorm
    simp only [vendor_from_mac, if_neg hm, load_oui_map, List.foldl]
    rw [hnorm, dictGet_dictInsert_self]
    rfl
  · decide

theorem vendor_lookup_spec_witness :
    vendor_from_mac (load_oui_map (some [("b8:27:eb", "Vohala Override")]))
      (some "B8-27-EB-AA-BB-CC") = "Vohala Override" :=
  vendor_lookup_spec.2.2.1 "b8:27:eb" "Vohala Override" "B8-27-EB-AA-BB-CC"
    (by decide) (by decide) (by decide)

/-- Claim C7: `mac_for_ip` yields `none` when the neighbor-table read failed,
and any hardware address it returns is neither the all-zero stale value nor
empty (an all-zero entry is never a valid result). -/
theorem mac_for_ip_never_zero :
    (∀ ip, mac_for_ip none ip = none) ∧
    (∀ (file : Option (List String)) (ip mac : String),
        mac_for_ip file ip = some mac →
        mac ≠ "00:00:00:00:00:00" ∧ mac ≠ "") := by
  constructor
  · intro ip
    rfl
  · intro file ip mac h
    have hinv : ∀ p ∈ read_arp_table file, p.2 ≠ "00:00:00:00:00:00" ∧ p.2 ≠ "" := by
      cases file with
      | none => intro p hp; simp [read_arp_table] at hp
      | some lines =>
        cases lines with
        | nil => intro p hp; simp [read_arp_table] at hp
        | cons hd rest =>
          simp only [read_arp_table]
          refine foldl_preserve arpStep
            (fun t => ∀ p ∈ t, p.2 ≠ "00:00:00:00:00:00" ∧ p.2 ≠ "") ?_ rest [] ?_
          · intro t line hInv p hp
            simp only [arpStep] at hp
            split at hp
            · split at hp
              · rcases mem_dictInsert hp with hmem | heq
                · exact hInv p hmem
                · subst heq
                  rename_i hcond
                  have h1 := ((Bool.and_eq_true _ _).mp hcond).1
                  have h2 := ((Bool.and_eq_true _ _).mp hcond).2
                  simp only [bne_iff_ne, ne_eq] at h1 h2
                  exact ⟨h2, h1⟩
              · exact hInv p hp
            · exact hInv p hp
          · intro p hp
            simp at hp
    exact hinv (ip, mac) (dictGet_mem h)

theorem mac_for_ip_never_zero_witness :
    mac_for_ip (some ["IP address HW type Flags HW address Mask Device",
        "192.168.1.5 0x1 0x2 aa:bb:cc:dd:ee:ff * eth0"]) "192.168.1.5" =
      some "aa:bb:cc:dd:ee:ff" ∧
    "aa:bb:cc:dd:ee:ff" ≠ "00:00:00:00:00:00" :=
  ⟨by decide,
   (mac_for_ip_never_zero.2
      (some ["IP address HW type Flags HW address Mask Device",
        "192.168.1.5 0x1 0x2 aa:bb:cc:dd:ee:ff * eth0"])
      "192.168.1.5" "aa:bb:cc:dd:ee:ff" (by decide)).1⟩

set_option maxRecDepth 8000 in
/-- Claim C8: a malformed target-network string never aborts the run — the
parse-failure branch substitutes 192.168.1.0/24 and emits the warning — and
the enumeration of that fallback /24 block is exactly its 254 usable host
addresses, excluding the network address 192.168.1.0 and the broadcast
address 192.168.1.255. -/
theorem network_fallback_spec :
    (∀ (parse : String → Option (Nat × Nat)) (s : String), parse s = none →
        chooseNet (parse s) = ((NETBASE, 24), true)) ∧
    (usableHosts NETBASE 256).length = 254 ∧
    NETBASE ∉ usableHosts NETBASE 256 ∧
    NETBASE + 255 ∉ usableHosts NETBASE 256 ∧
    usableHosts NETBASE 256 = (List.range 254).map (fun i => NETBASE + 1 + i) := by
  refine ⟨?_, by decide, by decide, by decide, by decide⟩
  intro parse s h
  rw [h]
  rfl

theorem network_fallback_spec_witness :
    chooseNet ((fun (_ : String) => (none : Option (Nat × Nat))) "not-a-network") =
      ((NETBASE, 24), true) :=
  network_fallback_spec.1 (fun _ => none) "not-a-network" rfl

/-- Claim C10: the vendor result depends only on the normalized
6-character prefix of the hardware address — two non-empty addresses with
equal normalized forms (uppercased, delimiters stripped, truncated to 6)
resolve to the same vendor under every map. -/
theorem vendor_from_mac_congruence :
    ∀ (m : List (String × String)) (m1 m2 : String), m1 ≠ "" → m2 ≠ "" →
      normalizeMac m1 = normalizeMac m2 →
      vendor_from_mac m (some m1) = vendor_from_mac m (some m2) := by
  intro m m1 m2 h1 h2 hn
  simp only [vendor_from_mac, if_neg h1, if_neg h2, hn]

theorem vendor_from_mac_congruence_witness :
    vendor_from_mac OUI_FALLBACK (some "b8-27-eb-00-00-00") =
      vendor_from_mac OUI_FALLBACK (some "B8:27:EB:11:22:33") :=
  vendor_from_mac_congruence OUI_FALLBACK "b8-27-eb-00-00-00" "B8:27:EB:11:22:33"
    (by decide) (by decide) (by decide)

theorem is_alive_verdict (ip : String) (env : ProbeEnv) :
    (is_alive ip env).1 =
      ((mac_for_ip env.arpFile1 ip).isSome || env.pingOk ||
        (tcpSweep env.tcpOk PORTS).1 || env.nmbOk ||
        (mac_for_ip env.arpFile2 ip).isSome) := by
  simp only [is_alive]
  cases h1 : (mac_for_ip env.arpFile1 ip).isSome <;>
    cases h2 : env.pingOk <;>
      cases h3 : (tcpSweep env.tcpOk PORTS).1 <;>
        cases h4 : env.nmbOk <;>
          cases h5 : (mac_for_ip env.arpFile2 ip).isSome <;>
            simp [h1, h2, h3, h4, h5]

/-- Claim C1: `is_alive` evaluates its probes in the fixed short-circuit
order — UDP nudge (side effect only, never a verdict source), neighbor
lookup, ICMP echo, TCP connect over `PORTS` in declared order, NetBIOS,
repeated neighbor lookup — and returns true at the first positive probe:
the probe trace is always a prefix of `fullTrace`; a present neighbor-table
entry yields true immediately, regardless of the other probe outcomes; and
the verdict is true exactly when some probe is positive, so an address
negative on every probe yields false. -/
theorem is_alive_probe_order :
    (∀ (ip : String) (env : ProbeEnv), (mac_for_ip env.arpFile1 ip).isSome = true →
        is_alive ip env = (true, [Probe.nudge, Probe.arpLookup])) ∧
    (∀ (ip : String) (env : ProbeEnv), (is_alive ip env).2 <+: fullTrace) ∧
    (∀ (ip : String) (env : ProbeEnv), (is_alive ip env).1 = true ↔
        ((mac_for_ip env.arpFile1 ip).isSome = true ∨ env.pingOk = true ∨
         (∃ p, p ∈ PORTS ∧ env.tcpOk p = true) ∨ env.nmbOk = true ∨
         (mac_for_ip env.arpFile2 ip).isSome = true)) := by
  refine ⟨?_, ?_, ?_⟩
  · intro ip env h1
    simp [is_alive, h1]
  · intro ip env
    simp only [is_alive]
    cases h1 : (mac_for_ip env.arpFile1 ip).isSome
    · cases h2 : env.pingOk
      · cases h3 : (tcpSweep env.tcpOk PORTS).1
        · have hs2 := tcpSweep_false_trace env.tcpOk PORTS h3
          cases h4 : env.nmbOk
          · cases h5 : (mac_for_ip env.arpFile2 ip).isSome
            · simp only [h1, h2, h3, h4, h5, Bool.false_eq_true, if_false]
              exact ⟨[], by simp [fullTrace, hs2]⟩
            · simp only [h1, h2, h3, h4, h5, Bool.false_eq_true, if_false, if_true]
              exact ⟨[], by simp [fullTrace, hs2]⟩
          · simp only [h1, h2, h3, h4, Bool.false_eq_true, if_false, if_true]
            exact ⟨[Probe.arpLookup], by simp [fullTrace, hs2]⟩
        · simp only [h1, h2, h3, Bool.false_eq_true, if_false, if_true]
          refine prefix_append_left [Probe.nudge, Probe.arpLookup, Probe.icmp] ?_
          exact prefix_append_extend _ (tcpSweep_trace_pre env.tcpOk PORTS)
      · simp only [h1, h2, Bool.false_eq_true, if_false, if_true]
        exact ⟨PORTS.map Probe.tcpProbe ++ [Probe.netbios, Probe.arpLookup],
          by simp [fullTrace]⟩
    · simp only [h1, if_true]
      exact ⟨Probe.icmp :: (PORTS.map Probe.tcpProbe ++ [Probe.netbios, Probe.arpLookup]),
        by simp [fullTrace]⟩
  · intro ip env
    rw [show ((is_alive ip env).1 = true) = (((mac_for_ip env.arpFile1 ip).isSome ||
        env.pingOk || (tcpSweep env.tcpOk PORTS).1 || env.nmbOk ||
        (mac_for_ip env.arpFile2 ip).isSome) = true) from
      congrArg (· = true) (is_alive_verdict ip env)]
    simp [Bool.or_eq_true, tcpSweep_true_iff, or_assoc]

theorem is_alive_probe_order_witness :
    (mac_for_ip (some ["IP address HW type Flags HW address Mask Device",
        "10.0.0.9 0x1 0x2 11:22:33:44:55:66 * eth0"]) "10.0.0.9").isSome = true ∧
    is_alive "10.0.0.9"
      { arpFile1 := some ["IP address HW type Flags HW address Mask Device",
          "10.0.0.9 0x1 0x2 11:22:33:44:55:66 * eth0"],
        pingOk := false, tcpOk := fun _ => false, nmbOk := false, arpFile2 := none } =
      (true, [Probe.nudge, Probe.arpLookup]) :=
  ⟨by decide,
   is_alive_probe_order.1 "10.0.0.9"
     { arpFile1 := some ["IP address HW type Flags HW address Mask Device",
         "10.0.0.9 0x1 0x2 11:22:33:44:55:66 * eth0"],
       pingOk := false, tcpOk := fun _ => false, nmbOk := false, arpFile2 := none }
     (by decide)⟩

/-- Claim C2 evaluation: on the exception path of `tcp_check` — `connect_ex`
raising after the socket was created — the bare `except` returns `False`
without executing `s.close()`, so the created socket is not closed on that
exit path; both returning paths (connect completed, connect refused) do
close it. -/
theorem tcp_check_exception_path_skips_close :
    (tcp_check SockOutcome.ok ConnectOutcome.raise).closed = false ∧
    (tcp_check SockOutcome.ok ConnectOutcome.raise).result = Except.ok false ∧
    (tcp_check SockOutcome.ok (ConnectOutcome.code 0)).closed = true ∧
    (tcp_check SockOutcome.ok (ConnectOutcome.code 111)).closed = true :=
  ⟨rfl, rfl, rfl, rfl⟩

/-- Claim C4 evaluation: `is_alive` propagates an exception raised by the TCP
socket creation, because `socket.socket(...)` at line 135 sits outside
`tcp_check`'s `try` block: with the address absent from the neighbor table
and ping failing, a raising socket creation at the first port probe makes
`is_alive` raise instead of returning a boolean. -/
theorem is_alive_propagates_socket_creation_failure :
    is_aliveE "192.168.1.77"
      { arpRead1 := Except.error (), pingRaw := Except.ok 1,
        sockCreate := fun _ => SockOutcome.raise,
        connectRaw := fun _ => ConnectOutcome.code 1,
        nmbRaw := Except.error (), arpRead2 := Except.error () } =
      Except.error () := rfl

/-- Claim C3 counterexample: an adapter-status response whose only `<00>`
line is a group record is counted as a hit by `nmb_has_name` (the code only
tests for the substring `"<00>"`), while the claim predicts no hit because
the response holds no workstation-service record (`specWorkstationName` is
false on it). -/
theorem nmb_has_name_group_only_counterexample :
    nmb_has_name (some "WORKGROUP       <00> - <GROUP> B <ACTIVE>") = true ∧
    specWorkstationName "WORKGROUP       <00> - <GROUP> B <ACTIVE>" = false := by
  exact ⟨by decide, by decide⟩

/-- Claim C3 amended: `nmb_has_name` returns true iff the raw response
contains the substring `"<00>"` anywhere — group records included — and any
query failure yields false. -/
theorem nmb_has_name_substring_spec :
    nmb_has_name none = false ∧
    ∀ out : String, (nmb_has_name (some out) = true ↔
      ∃ pre post : List Char, out.data = pre ++ "<00>".data ++ post) := by
  constructor
  · rfl
  · intro out
    exact containsSub_eq_true_iff out.data "<00>".data

/-- Claim C9: hostname resolution returns the reverse-DNS result when that
lookup succeeds; otherwise it extracts the first NetBIOS name from a `<00>`
line that is not a group record and whose name is neither empty nor the
literal "name_query" (`specNbName`); otherwise it returns "-"; and the
result is never the empty string (given a reverse-DNS collaborator that
never reports an empty hostname). -/
theorem resolve_hostname_spec :
    (∀ (h : String) (o : Option String), resolve_hostname (some h) o = h) ∧
    resolve_hostname none none = "-" ∧
    (∀ out : String, resolve_hostname none (some out) =
        ((specNbName (pySplitlines out.data)).map String.mk).getD "-") ∧
    (∀ (r o : Option String), r ≠ some "" → resolve_hostname r o ≠ "") := by
  refine ⟨fun h o => rfl, rfl, ?_, ?_⟩
  · intro out
    exact nbLoop_eq_spec (pySplitlines out.data)
  · intro r o hr
    cases r with
    | some h =>
      intro hEq
      apply hr
      simp only [resolve_hostname] at hEq
      rw [hEq]
    | none =>
      cases o with
      | none => decide
      | some out => exact nbLoop_ne_empty (pySplitlines out.data)

theorem resolve_hostname_spec_witness : resolve_hostname none none ≠ "" :=
  resolve_hostname_spec.2.2.2 none none (by decide)
